import Mathlib

/-!
Verification of the knowledge-graph frontend (force-directed layout, position
caching, edge filtering/styling, summary caching, concept-hierarchy rendering
and path highlighting).

The JavaScript sources are shallowly embedded over `ℚ`.  `Math.sqrt` is kept
abstract as a function parameter `sqrt : ℚ → ℚ`; every definition is a direct
transcription of the corresponding source function.  Definitions whose name
starts with `spec` are transcribed from the specification text instead, in
order to compare the two.
-/

/-! ## Force layout engine (`applyForceLayout` in knowledge-graph.js) -/

/-- A node as seen by the layout loop: `key` (the graphology key, a stringified
numeric cluster id, modelled as `ℕ`), position and velocity.  Velocity starts
at `0`, matching `node.vx || 0` on the first iteration (fields are initially
`undefined` in the source). -/
structure LayoutNode where
  key : ℕ
  x : ℚ
  y : ℚ
  vx : ℚ
  vy : ℚ

/-- An edge of the (already threshold-filtered) sigma graph, by node keys. -/
structure LayoutEdge where
  source : ℕ
  target : ℕ

/-- The per-iteration force accumulator (`forces` object, keyed by node key). -/
abbrev Force : Type := ℕ → ℚ × ℚ

/-- All ordered pairs `(l[i], l[j])` with `i < j`, in the order the two nested
repulsion loops visit them. -/
def List.ordPairs {α : Type} : List α → List (α × α)
  | [] => []
  | a :: rest => rest.map (fun b => (a, b)) ++ List.ordPairs rest

/-- The expression `Math.sqrt(dx*dx + dy*dy) || 0.1`: the JS `||` replaces only a falsy
(i.e. exactly zero) distance with `0.1`. -/
def guardedDist (sqrt : ℚ → ℚ) (dx dy : ℚ) : ℚ :=
  let d := sqrt (dx * dx + dy * dy)
  if d = 0 then 1/10 else d

/-- What the two `forces[...] -=` / `forces[...] +=` statements of the
repulsion loop add to the accumulator entry of key `k`, for the ordered node
pair `p = (nodes[i], nodes[j])`, `i < j`. -/
def repulsionDelta (sqrt : ℚ → ℚ) (p : LayoutNode × LayoutNode) (k : ℕ) : ℚ × ℚ :=
  let n1 := p.1
  let n2 := p.2
  let dx := n2.x - n1.x
  let dy := n2.y - n1.y
  let dist := guardedDist sqrt dx dy
  let force := ((1/10) / (dist * dist)) * 100
  (if k = n1.key then (-(dx / dist * force), -(dy / dist * force)) else 0) +
    (if k = n2.key then (dx / dist * force, dy / dist * force) else 0)

/-- What the spring loop adds to the accumulator entry of key `k` for edge
`e`; the endpoints are resolved with `nodes.find(...)` and the edge is skipped
when either endpoint is missing (`if (n1 && n2)`). -/
def springDelta (sqrt : ℚ → ℚ) (nodes : List LayoutNode) (e : LayoutEdge) (k : ℕ) :
    ℚ × ℚ :=
  match nodes.find? (fun n => n.key == e.source), nodes.find? (fun n => n.key == e.target) with
  | some n1, some n2 =>
    let dx := n2.x - n1.x
    let dy := n2.y - n1.y
    let dist := guardedDist sqrt dx dy
    let force := (dist - 2) * (1/100)
    (if k = n1.key then (dx / dist * force, dy / dist * force) else 0) +
      (if k = n2.key then (-(dx / dist * force), -(dy / dist * force)) else 0)
  | _, _ => 0

/-- Pointwise accumulation into the `forces` object. -/
def applyDeltas (f : Force) (d : ℕ → ℚ × ℚ) : Force := fun k => f k + d k

/-- One iteration of the `for (let iter = 0; ...)` loop: reset the force
accumulator of every node to zero, add the Coulomb repulsion of every ordered
pair `i < j`, add the spring force of every edge, then update velocity
(`v = v*0.85 + force*0.05`) and position (`pos += v`) of every node. -/
def layoutIter (sqrt : ℚ → ℚ) (edges : List LayoutEdge) (nodes : List LayoutNode) :
    List LayoutNode :=
  let reset : Force := fun _ => (0, 0)
  let f1 := (List.ordPairs nodes).foldl (fun f p => applyDeltas f (repulsionDelta sqrt p)) reset
  let f2 := edges.foldl (fun f e => applyDeltas f (springDelta sqrt nodes e)) f1
  nodes.map fun n =>
    let fx := (f2 n.key).1
    let fy := (f2 n.key).2
    let vx := n.vx * (17/20) + fx * (1/20)
    let vy := n.vy * (17/20) + fy * (1/20)
    { n with x := n.x + vx, y := n.y + vy, vx := vx, vy := vy }

/-- The function `applyForceLayout`: `iterations = 50` runs of the simulation loop. -/
def applyForceLayout (sqrt : ℚ → ℚ) (nodes : List LayoutNode) (edges : List LayoutEdge) :
    List LayoutNode :=
  (layoutIter sqrt edges)^[50] nodes

/-! ### The specification's description of one iteration

The spec describes each iteration per node: the force on a node is the sum
over every other node of a Coulomb repulsion and the sum over every edge of a
spring attraction, followed by the same velocity/position update.  The
distance guard is a parameter: the claim words it as "a floor of `0.1`"
(`specFloorGuard`), while the source replaces only an exactly-zero distance
(`specZeroGuard`). -/

/-- The claim's guard: `dist` "guarded away from zero by a floor of `0.1`". -/
def specFloorGuard (d : ℚ) : ℚ := max d (1/10)

/-- The source's guard: `d || 0.1`, replacing only an exactly-zero value. -/
def specZeroGuard (d : ℚ) : ℚ := if d = 0 then 1/10 else d

/-- The repulsion `m` exerts on `n`: magnitude `(0.1/dist^2)*100` along the
unit vector, pushing `n` away from `m`. -/
def specRepTerm (guard : ℚ → ℚ) (sqrt : ℚ → ℚ) (n m : LayoutNode) : ℚ × ℚ :=
  let dx := n.x - m.x
  let dy := n.y - m.y
  let dist := guard (sqrt (dx * dx + dy * dy))
  let force := ((1/10) / (dist * dist)) * 100
  (dx / dist * force, dy / dist * force)

/-- Total repulsive force on `n`: for every other node `m` (every unordered
pair contributes to both of its members), the repulsion of `m` on `n`. -/
def specRepulsionOn (guard : ℚ → ℚ) (sqrt : ℚ → ℚ) (nodes : List LayoutNode)
    (n : LayoutNode) : ℚ × ℚ :=
  ((nodes.filter (fun m => m.key ≠ n.key)).map (specRepTerm guard sqrt n)).sum

/-- Spring pull on endpoint `u` toward the other endpoint `w`: magnitude
`(dist - 2) * 0.01` along the unit vector from `u` to `w`. -/
def specSpringPull (guard : ℚ → ℚ) (sqrt : ℚ → ℚ) (u w : LayoutNode) : ℚ × ℚ :=
  let dx := w.x - u.x
  let dy := w.y - u.y
  let dist := guard (sqrt (dx * dx + dy * dy))
  let force := (dist - 2) * (1/100)
  (dx / dist * force, dy / dist * force)

/-- The spring force edge `e` exerts on `n`: when `n` is an endpoint, a pull
toward the (resolved) other endpoint. -/
def specSpringTerm (guard : ℚ → ℚ) (sqrt : ℚ → ℚ) (nodes : List LayoutNode)
    (e : LayoutEdge) (n : LayoutNode) : ℚ × ℚ :=
  (if n.key = e.source then
    match nodes.find? (fun m => m.key == e.target) with
    | some w => specSpringPull guard sqrt n w
    | none => 0
   else 0) +
  (if n.key = e.target then
    match nodes.find? (fun m => m.key == e.source) with
    | some w => specSpringPull guard sqrt n w
    | none => 0
   else 0)

/-- Total spring force on `n`: every edge with `n` as an endpoint pulls `n`
toward its (resolved) other endpoint. -/
def specSpringOn (guard : ℚ → ℚ) (sqrt : ℚ → ℚ) (nodes : List LayoutNode)
    (edges : List LayoutEdge) (n : LayoutNode) : ℚ × ℚ :=
  (edges.map (fun e => specSpringTerm guard sqrt nodes e n)).sum

/-- One iteration as the specification describes it, parameterised by the
distance guard. -/
def specIteration (guard : ℚ → ℚ) (sqrt : ℚ → ℚ) (edges : List LayoutEdge)
    (nodes : List LayoutNode) : List LayoutNode :=
  nodes.map fun n =>
    let F := specRepulsionOn guard sqrt nodes n + specSpringOn guard sqrt nodes edges n
    let vx := n.vx * (17/20) + F.1 * (1/20)
    let vy := n.vy * (17/20) + F.2 * (1/20)
    { n with x := n.x + vx, y := n.y + vy, vx := vx, vy := vy }

/-! ## Graph data, edge filter and stylist (`renderGraph` in knowledge-graph.js) -/

/-- A node of the fetched cluster graph (`result.graph_data.nodes[i]`). -/
structure GNode where
  id : ℕ
  label : String
  size : ℚ
  avg_engagement : ℚ
  color : String

/-- An edge of the fetched cluster graph; `similarity` is `none` when the
field is absent in the service response. -/
structure GEdge where
  source : ℕ
  target : ℕ
  similarity : Option ℚ

/-- The fetched cluster graph. -/
structure GraphData where
  nodes : List GNode
  edges : List GEdge

/-- The line `const similarity = edge.similarity || 0.5`: a missing value is replaced
by `0.5`, and — because `0` is falsy in JS — so is an exact `0`. -/
def effSim (s : Option ℚ) : ℚ :=
  match s with
  | none => 1/2
  | some v => if v = 0 then 1/2 else v

/-- The test `if (similarity >= currentThreshold)`: the inclusion test applied to each
edge of the fetched graph. -/
def edgeIncluded (e : GEdge) (threshold : ℚ) : Bool :=
  effSim e.similarity ≥ threshold

/-- The three-tier style: color and width chosen from the (effective)
similarity alone. -/
def styleFor (similarity : ℚ) : String × ℚ :=
  if similarity > 4/5 then ("rgba(20, 20, 20, 0.9)", 7/2)
  else if similarity ≥ 1/2 then ("rgba(100, 100, 100, 0.6)", 5/2)
  else ("rgba(180, 180, 180, 0.25)", 3/2)

/-- An edge pushed onto `sigmaGraph.edges`. -/
structure StyledEdge where
  source : ℕ
  target : ℕ
  similarity : ℚ
  color : String
  size : ℚ

/-- The edge loop of `renderGraph`: keep an edge exactly when its effective
similarity meets the threshold, styling it by the three tiers. -/
def filterStyleEdges (edges : List GEdge) (threshold : ℚ) : List StyledEdge :=
  edges.filterMap fun e =>
    let similarity := effSim e.similarity
    if edgeIncluded e threshold then
      some ⟨e.source, e.target, similarity, (styleFor similarity).1, (styleFor similarity).2⟩
    else none

/-! ## Node size scaling (`renderGraph` in knowledge-graph.js) -/

/-- Computes `Math.min(...sizes)` for a non-empty list (`0` as an unused default). -/
def listMin : List ℚ → ℚ
  | [] => 0
  | x :: xs => xs.foldl min x

/-- Computes `Math.max(...sizes)` for a non-empty list (`0` as an unused default). -/
def listMax : List ℚ → ℚ
  | [] => 0
  | x :: xs => xs.foldl max x

/-- The node radius: `minSize + normalizedSize * (maxSize - minSize)` with
`minSize = 5`, `maxSize = 30` and
`normalizedSize = (size - minNodeSize) / (maxNodeSize - minNodeSize || 1)`. -/
def nodeRadius (sizes : List ℚ) (size : ℚ) : ℚ :=
  let minNodeSize := listMin sizes
  let maxNodeSize := listMax sizes
  let denom := if maxNodeSize - minNodeSize = 0 then 1 else maxNodeSize - minNodeSize
  let normalizedSize := (size - minNodeSize) / denom
  5 + normalizedSize * (30 - 5)

/-- The specification's wording of the same scaling: linear normalisation of
the story count against the observed minimum and maximum, with the denominator
treated as `1` when all nodes share one size. -/
def specNodeRadius (sizes : List ℚ) (size : ℚ) : ℚ :=
  let lo := listMin sizes
  let hi := listMax sizes
  let denom := if sizes.all (fun s => s = lo) then 1 else hi - lo
  5 + (size - lo) / denom * (30 - 5)

/-! ## Position cache and `renderGraph` -/

/-- The cache `calculatedPositions`: node id to last computed `(x, y)`. -/
abbrev PosCache : Type := List (ℕ × ℚ × ℚ)

/-- A node pushed onto `sigmaGraph.nodes` (graphology keys are stringified
ids, modelled as the ids themselves). -/
structure SNode where
  key : ℕ
  label : String
  size : ℚ
  color : String
  originalId : ℕ
  storiesCount : ℚ
  engagement : ℚ
  x : ℚ
  y : ℚ

/-- The node loop of `renderGraph`: radius scaling plus position restoration —
a cached position when `calculatedPositions` exists and holds the node's id,
otherwise a fresh random seed (`Math.random() * 100`, modelled by `seed` as a
function of the node's index). -/
def buildSigmaNodes (g : GraphData) (cache : Option PosCache) (seed : ℕ → ℚ × ℚ) :
    List SNode :=
  let sizes := g.nodes.map (fun n => n.size)
  g.nodes.mapIdx fun i n =>
    let p :=
      match cache with
      | some c =>
        match c.lookup n.id with
        | some q => q
        | none => seed i
      | none => seed i
    ⟨n.id, n.label, nodeRadius sizes n.size, n.color, n.id, n.size, n.avg_engagement,
      p.1, p.2⟩

/-- What `renderGraph` leaves on screen: the sigma nodes (with final
positions) and the filtered, styled edges. -/
structure RenderOut where
  nodes : List SNode
  edges : List StyledEdge

/-- The function `renderGraph`, reduced to its data flow: build the sigma nodes and edges;
when no positions are cached, run `applyForceLayout` over the sigma nodes and
the filtered edges (fresh velocities), write the final positions back and
store them in `calculatedPositions`; when positions are cached, render them as
built and leave the cache untouched. -/
def renderGraph (sqrt : ℚ → ℚ) (seed : ℕ → ℚ × ℚ) (g : GraphData) (threshold : ℚ)
    (cache : Option PosCache) : RenderOut × Option PosCache :=
  let sn := buildSigmaNodes g cache seed
  let se := filterStyleEdges g.edges threshold
  match cache with
  | some c => (⟨sn, se⟩, some c)
  | none =>
    let ln := sn.map fun n => LayoutNode.mk n.key n.x n.y 0 0
    let ln2 := applyForceLayout sqrt ln (se.map fun e => ⟨e.source, e.target⟩)
    let sn2 := List.zipWith (fun (n : SNode) (l : LayoutNode) => { n with x := l.x, y := l.y }) sn ln2
    (⟨sn2, se⟩, some (sn2.map fun n => (n.originalId, n.x, n.y)))

/-! ## The `KnowledgeGraphManager` module state

`calculatedPositions`, `currentGraphData`, `currentThreshold` are single
module-level variables; only `graphData` and `searchIds` are objects with a
`top` and a `bottom` slot. -/

/-- The two topic slots. -/
inductive Topic where
  | top
  | bottom
deriving DecidableEq

/-- The module-level mutable state of `KnowledgeGraphManager`. -/
structure KGState where
  currentTopic : Topic
  graphDataTop : Option GraphData
  graphDataBottom : Option GraphData
  currentGraphData : Option GraphData
  calculatedPositions : Option PosCache
  currentThreshold : ℚ
  lastRender : Option RenderOut

/-- The `graphData[topic]` slot. -/
def KGState.graphDataFor (st : KGState) : Topic → Option GraphData
  | .top => st.graphDataTop
  | .bottom => st.graphDataBottom

/-- Write the `graphData[topic]` slot. -/
def KGState.setGraphDataFor (st : KGState) : Topic → Option GraphData → KGState
  | .top, g => { st with graphDataTop := g }
  | .bottom, g => { st with graphDataBottom := g }

/-- The module state right after `init`. -/
def kgInit : KGState :=
  ⟨.top, none, none, none, none, 1/2, none⟩

/-- The user-visible events that touch the graph state. -/
inductive KGEvent where
  | generateGraph (t : Topic) (fetched : GraphData)
  | switchTopic (t : Topic)
  | thresholdChange (v : ℚ)

/-- One event step.  `generateGraph` (a successful fetch) caches the new data
in the topic's slot, resets `calculatedPositions` to `null` and renders the
fetched graph; `switchTopic` re-renders the target topic's cached graph data,
if any; a threshold slider change re-renders `currentGraphData`, if any.
Every render goes through `renderGraph`, which recomputes the layout and
refills `calculatedPositions` only when the cache is empty. -/
def kgStep (sqrt : ℚ → ℚ) (seed : ℕ → ℚ × ℚ) (st : KGState) : KGEvent → KGState
  | .generateGraph t g =>
    let st1 := (st.setGraphDataFor t (some g))
    let r := renderGraph sqrt seed g st.currentThreshold none
    { st1 with currentGraphData := some g, calculatedPositions := r.2,
               lastRender := some r.1 }
  | .switchTopic t =>
    match st.graphDataFor t with
    | some g =>
      let r := renderGraph sqrt seed g st.currentThreshold st.calculatedPositions
      { st with currentTopic := t, currentGraphData := some g,
                calculatedPositions := r.2, lastRender := some r.1 }
    | none => { st with currentTopic := t }
  | .thresholdChange v =>
    match st.currentGraphData with
    | some g =>
      let r := renderGraph sqrt seed g v st.calculatedPositions
      { st with currentThreshold := v, currentGraphData := some g,
                calculatedPositions := r.2, lastRender := some r.1 }
    | none => { st with currentThreshold := v }

/-- The cached position for a node id, if any. -/
def KGState.cachedPos (st : KGState) (id : ℕ) : Option (ℚ × ℚ) :=
  match st.calculatedPositions with
  | some c => c.lookup id
  | none => none

/-! ## Cluster view and summary fetch (`showClusterDetails` in part_000) -/

/-- The node attributes handed to `showClusterDetails` by the click handler. -/
structure ClusterAttrs where
  originalId : ℕ
  label : String
  storiesCount : ℕ
  engagement : ℚ
  storyIds : List String

/-- A summary-service response. -/
structure SummaryResp where
  title : String
  summary : String
deriving DecidableEq

/-- The cluster-view state: current selection, the displayed title / size /
summary text, the session summary cache and the keys of in-flight fetches. -/
structure ClusterViewState where
  currentClusterId : Option ℕ
  viewTitle : String
  viewSize : ℕ
  viewSummary : String
  summaryCache : List (String × SummaryResp)
  pendingKeys : List (String × ℕ)

/-- The key `const cacheKey = currentTopic + "-" + nodeAttrs.originalId`. -/
def kgSummaryCacheKey (topic : String) (originalId : ℕ) : String :=
  topic ++ "-" ++ toString originalId

/-- The synchronous part of `showClusterDetails`: select the cluster, show
its label and metrics immediately; on a cache hit show the cached title and
summary, otherwise show the "Generating summary..." placeholder and start a
summary fetch. -/
def showClusterDetails (topic : String) (st : ClusterViewState) (attrs : ClusterAttrs) :
    ClusterViewState :=
  let st1 := { st with currentClusterId := some attrs.originalId,
                       viewTitle := attrs.label, viewSize := attrs.storiesCount }
  let key := kgSummaryCacheKey topic attrs.originalId
  match st1.summaryCache.lookup key with
  | some cached => { st1 with viewSummary := cached.summary, viewTitle := cached.title }
  | none =>
    { st1 with viewSummary := "Generating summary...",
               pendingKeys := st1.pendingKeys ++ [(key, attrs.originalId)] }

/-- The continuation after `await api.getSummary(...)` resolves: write the
response's title and summary to the view and cache it under the fetch's key —
unconditionally, with no check that the selection still is the requester. -/
def resolveSummary (st : ClusterViewState) (key : String) (resp : SummaryResp) :
    ClusterViewState :=
  { st with viewTitle := resp.title, viewSummary := resp.summary,
            summaryCache := (key, resp) :: st.summaryCache,
            pendingKeys := st.pendingKeys.filter (fun p => !(p.1 == key)) }

/-- The cluster view before any selection. -/
def clusterViewInit : ClusterViewState :=
  ⟨none, "", 0, "", [], []⟩

/-! ## The summary cache of `VisualizationManager` (`_getCacheKey`) -/

/-- The sort `[...storyIds].sort()`: JS default lexicographic string sort. -/
def jsSortStrings (ids : List String) : List String :=
  ids.mergeSort (fun a b => decide (a ≤ b))

/-- The key template `` `${searchId}:${clusterId}:${sortedIds.join(',')}` ``. -/
def _getCacheKey (searchId : String) (clusterId : ℕ) (storyIds : List String) : String :=
  searchId ++ ":" ++ toString clusterId ++ ":" ++ String.intercalate "," (jsSortStrings storyIds)

/-- What one summary request returns and leaves behind. -/
structure SummaryFlowResult where
  shown : SummaryResp
  cache : List (String × SummaryResp)
  invokedService : Bool

/-- The cache discipline of `handleClusterClickByClusterId`: look the key up
in `summaryCache` first and display the hit without calling the service;
otherwise call the Summary Service (`svc`) and cache its answer. -/
def requestClusterSummary (svc : String → ℕ → List String → SummaryResp)
    (cache : List (String × SummaryResp)) (searchId : String) (clusterId : ℕ)
    (storyIds : List String) : SummaryFlowResult :=
  let key := _getCacheKey searchId clusterId storyIds
  match cache.lookup key with
  | some cached => ⟨cached, cache, false⟩
  | none =>
    let s := svc searchId clusterId storyIds
    ⟨s, (key, s) :: cache, true⟩

/-! ## Concept hierarchy build (`renderConceptTree` in part_000) -/

/-- A flat concept node as returned by the Concept Hierarchy service. -/
structure CNode where
  id : ℕ
  label : String
  layer : ℕ
  article_url : Option String
  article_hn_url : Option String
  children : List ℕ

/-- The lookup `nodeMap[cid]` after all passes: a JS object write is last-one-wins, so
look the id up from the back of the list. -/
def nodeMapLookup (nodes : List CNode) (cid : ℕ) : Option CNode :=
  nodes.reverse.find? (fun n => n.id == cid)

/-- The resolution `node.children.map(childId => nodeMap[childId]).filter(Boolean)`: resolve
the declared child ids, silently dropping any id that resolves to nothing. -/
def resolveChildren (nodes : List CNode) (ids : List ℕ) : List CNode :=
  ids.filterMap (nodeMapLookup nodes)

/-- The tree handed to `d3.hierarchy`. -/
inductive CTree where
  | node : CNode → List CTree → CTree

/-- Unfold the linked `nodeMap` records into a tree, with fuel bounding the
depth (the data is a tree, so `nodes.length` levels always suffice). -/
def buildTree (nodes : List CNode) : ℕ → CNode → CTree
  | 0, u => .node u []
  | fuel + 1, u => .node u ((resolveChildren nodes u.children).map (buildTree nodes fuel))

/-- What `renderConceptTree` leaves in the canvas: an inline error message or
a rendered tree. -/
inductive ConceptRender where
  | buildError : String → ConceptRender
  | tree : CTree → ConceptRender

/-- Is the render an error state? -/
def ConceptRender.isError : ConceptRender → Bool
  | .buildError _ => true
  | .tree _ => false

/-- The function `renderConceptTree`: an empty node list or an unresolvable `rootId` shows
an inline error; otherwise the hierarchy rooted at `nodeMap[rootId]` is
rendered (dangling child ids having been dropped by `resolveChildren`). -/
def renderConceptTree (nodes : List CNode) (rootId : ℕ) : ConceptRender :=
  if nodes.isEmpty then .buildError "No concept data available"
  else
    match nodeMapLookup nodes rootId with
    | none => .buildError "Invalid root node"
    | some root => .tree (buildTree nodes nodes.length root)

/-- Does some node declare a child id that resolves to no node of the list? -/
def hasDanglingChild (nodes : List CNode) : Bool :=
  nodes.any fun u => u.children.any fun c => (nodeMapLookup nodes c).isNone

/-! ## Path highlighting (`isPathHighlighted`, `clearPathHighlight`,
`highlightPathToRoot`, the circle click handler in part_000) -/

/-- The rendered tree as the click handlers see it: node ids, links (source
id, target id) and the d3 parent pointers. -/
structure TreeView where
  nodes : List ℕ
  links : List (ℕ × ℕ)
  parent : ℕ → Option ℕ

/-- The `highlighted` / `dimmed` class pair of every node and of every link of
the current SVG. -/
structure HClasses where
  nodeCls : List (ℕ × Bool × Bool)
  linkCls : List ((ℕ × ℕ) × Bool × Bool)

/-- Neither class set on any element: freshly created SVG elements, and also
the result of `classed('highlighted dimmed', false)` on every element. -/
def allClassesOff (v : TreeView) : HClasses :=
  ⟨v.nodes.map (fun i => (i, false, false)), v.links.map (fun l => (l, false, false))⟩

/-- The module-level flag `isPathHighlighted` together with the classes of the
currently rendered SVG. -/
structure HLState where
  isPathHighlighted : Bool
  cls : HClasses

/-- The function `clearPathHighlight`: remove both classes from every node and link and
reset the flag. -/
def clearPathHighlight (v : TreeView) : HLState :=
  ⟨false, allClassesOff v⟩

/-- The loop `while (current) { pathNodes.push(current.data.id); current = current.parent }`,
with fuel bounding the parent-chain length. -/
def pathToRoot (parent : ℕ → Option ℕ) : ℕ → ℕ → List ℕ
  | 0, n => [n]
  | fuel + 1, n =>
    n :: (match parent n with
          | some p => pathToRoot parent fuel p
          | none => [])

/-- The function `highlightPathToRoot`: mark every node and link on the clicked node's
root path `highlighted`, everything else `dimmed` (a link needs both
endpoints on the path), and set the flag. -/
def highlightPathToRoot (v : TreeView) (fuel : ℕ) (n : ℕ) : HLState :=
  let pathNodeSet := pathToRoot v.parent fuel n
  ⟨true,
    ⟨v.nodes.map (fun i => (i, pathNodeSet.contains i, !pathNodeSet.contains i)),
     v.links.map (fun l =>
       (l, pathNodeSet.contains l.1 && pathNodeSet.contains l.2,
        !(pathNodeSet.contains l.1 && pathNodeSet.contains l.2)))⟩⟩

/-- The circle click handler: when a path is currently highlighted any click
clears it, otherwise the clicked node's root path is highlighted. -/
def onCircleClick (v : TreeView) (fuel : ℕ) (n : ℕ) (s : HLState) : HLState :=
  if s.isPathHighlighted then clearPathHighlight v
  else highlightPathToRoot v fuel n

/-- The effect of `renderConceptTree` on the highlight state: the canvas is
cleared and fresh class-less elements are drawn for the new view, while the
module-level `isPathHighlighted` flag is never written. -/
def renderConceptTreeView (s : HLState) (v2 : TreeView) : HLState :=
  ⟨s.isPathHighlighted, allClassesOff v2⟩

/-! ## Concrete instances used in counterexamples and witnesses -/

/-- A square-root table that agrees with the real square root on the only
value the counterexample run queries, `(1/20)^2 = 1/400`. -/
def sqrtCex (q : ℚ) : ℚ := if q = 1/400 then 1/20 else 0

/-- Two nodes at rest, `1/20` apart: closer than `0.1` but not coincident. -/
def layoutCexNodes : List LayoutNode := [⟨0, 0, 0, 0, 0⟩, ⟨1, 1/20, 0, 0, 0⟩]

/-- A single-node graph fetched for the bottom topic. -/
def c4GraphB : GraphData := ⟨[⟨5, "B0", 3, 1, "#38bdf8"⟩], []⟩

/-- A single-node graph (different node id) fetched for the top topic. -/
def c4GraphA : GraphData := ⟨[⟨7, "A0", 4, 2, "#f472b6"⟩], []⟩

/-- A fixed stand-in for the `Math.random()` position stream. -/
def c4Seed : ℕ → ℚ × ℚ := fun _ => (10, 20)

/-- A stand-in for `Math.sqrt` (never consulted on these one-node graphs). -/
def c4Sqrt : ℚ → ℚ := fun _ => 0

/-- State after generating a graph for the bottom topic. -/
def c4S1 : KGState := kgStep c4Sqrt c4Seed kgInit (.generateGraph .bottom c4GraphB)

/-- State after then generating a graph for the top topic. -/
def c4S2 : KGState := kgStep c4Sqrt c4Seed c4S1 (.generateGraph .top c4GraphA)

/-- Cluster A's node attributes. -/
def c5AttrsA : ClusterAttrs := ⟨1, "Cluster A", 3, 2, []⟩

/-- Cluster B's node attributes. -/
def c5AttrsB : ClusterAttrs := ⟨2, "Cluster B", 4, 1, []⟩

/-- The late summary response for cluster A. -/
def c5RespA : SummaryResp := ⟨"Stale title A", "Stale summary A"⟩

/-- Select A (fetch pending), select B (fetch pending), then A's fetch
resolves. -/
def c5FinalState : ClusterViewState :=
  resolveSummary
    (showClusterDetails "top" (showClusterDetails "top" clusterViewInit c5AttrsA) c5AttrsB)
    (kgSummaryCacheKey "top" c5AttrsA.originalId) c5RespA

/-- A one-node concept list whose node declares the missing child id `2`. -/
def c6Nodes : List CNode := [⟨1, "root concept", 1, none, none, [2]⟩]

/-! ## Helper lemmas -/

theorem foldl_min_le : ∀ (xs : List ℚ) (x s : ℚ), s ∈ x :: xs → xs.foldl min x ≤ s := by
  intro xs
  induction xs with
  | nil =>
    intro x s hs
    rcases List.mem_cons.mp hs with h | h
    · simp [h]
    · cases h
  | cons a as ih =>
    intro x s hs
    have hbase : as.foldl min (min x a) ≤ min x a :=
      ih (min x a) (min x a) (List.mem_cons_self _ _)
    simp only [List.foldl_cons]
    rcases List.mem_cons.mp hs with rfl | h
    · exact le_trans hbase (min_le_left _ _)
    · rcases List.mem_cons.mp h with rfl | h2
      · exact le_trans hbase (min_le_right _ _)
      · exact ih (min x a) s (List.mem_cons_of_mem _ h2)

theorem le_foldl_max : ∀ (xs : List ℚ) (x s : ℚ), s ∈ x :: xs → s ≤ xs.foldl max x := by
  intro xs
  induction xs with
  | nil =>
    intro x s hs
    rcases List.mem_cons.mp hs with h | h
    · simp [h]
    · cases h
  | cons a as ih =>
    intro x s hs
    have hbase : max x a ≤ as.foldl max (max x a) :=
      ih (max x a) (max x a) (List.mem_cons_self _ _)
    simp only [List.foldl_cons]
    rcases List.mem_cons.mp hs with rfl | h
    · exact le_trans (le_max_left _ _) hbase
    · rcases List.mem_cons.mp h with rfl | h2
      · exact le_trans (le_max_right _ _) hbase
      · exact ih (max x a) s (List.mem_cons_of_mem _ h2)

theorem foldl_max_mem : ∀ (xs : List ℚ) (x : ℚ), xs.foldl max x ∈ x :: xs := by
  intro xs
  induction xs with
  | nil => intro x; simp
  | cons a as ih =>
    intro x
    simp only [List.foldl_cons]
    have h := ih (max x a)
    rcases List.mem_cons.mp h with h | h
    · rcases max_choice x a with h2 | h2
      · exact List.mem_cons.mpr (Or.inl (h.trans h2))
      · exact List.mem_cons.mpr (Or.inr (List.mem_cons.mpr (Or.inl (h.trans h2))))
    · exact List.mem_cons.mpr (Or.inr (List.mem_cons.mpr (Or.inr h)))

theorem listMin_le (l : List ℚ) (s : ℚ) (hs : s ∈ l) : listMin l ≤ s := by
  match l with
  | [] => cases hs
  | x :: xs => exact foldl_min_le xs x s hs

theorem le_listMax (l : List ℚ) (s : ℚ) (hs : s ∈ l) : s ≤ listMax l := by
  match l with
  | [] => cases hs
  | x :: xs => exact le_foldl_max xs x s hs

theorem listMax_mem (l : List ℚ) (h : l ≠ []) : listMax l ∈ l := by
  match l with
  | [] => exact absurd rfl h
  | x :: xs => exact foldl_max_mem xs x

theorem all_eq_listMin_iff (l : List ℚ) (h : l ≠ []) :
    (l.all fun s => s = listMin l) = true ↔ listMax l - listMin l = 0 := by
  constructor
  · intro hall
    have hmax : listMax l ∈ l := listMax_mem l h
    have := List.all_eq_true.mp hall _ hmax
    have heq : listMax l = listMin l := of_decide_eq_true this
    simp [heq]
  · intro hz
    apply List.all_eq_true.mpr
    intro s hs
    apply decide_eq_true
    have h1 : listMin l ≤ s := listMin_le l s hs
    have h2 : s ≤ listMax l := le_listMax l s hs
    have h3 : listMax l = listMin l := by linarith
    linarith

/-! ## C9: node radius scaling -/

/-- C9: for every non-empty node set, the visual radius is
`5 + ((size - min)/(max - min)) * (30 - 5)` with the denominator treated as
`1` when all nodes share one size; for sizes `[1,5,10,20]` size `1` maps to
the minimum radius `5`, size `20` to the maximum radius `30`, and `5` and
`10` strictly between. -/
theorem c9_node_radius :
    (∀ (sizes : List ℚ) (size : ℚ), sizes ≠ [] →
      nodeRadius sizes size = specNodeRadius sizes size)
    ∧ nodeRadius [1, 5, 10, 20] 1 = 5
    ∧ nodeRadius [1, 5, 10, 20] 20 = 30
    ∧ (5 < nodeRadius [1, 5, 10, 20] 5 ∧ nodeRadius [1, 5, 10, 20] 5 < 30)
    ∧ (5 < nodeRadius [1, 5, 10, 20] 10 ∧ nodeRadius [1, 5, 10, 20] 10 < 30) := by
  refine ⟨?_, ?_, ?_, ⟨?_, ?_⟩, ⟨?_, ?_⟩⟩
  · intro sizes size hne
    simp only [nodeRadius, specNodeRadius]
    by_cases hc : listMax sizes - listMin sizes = 0
    · rw [if_pos hc, if_pos ((all_eq_listMin_iff sizes hne).mpr hc)]
    · rw [if_neg hc, if_neg (fun hall => hc ((all_eq_listMin_iff sizes hne).mp hall))]
  all_goals norm_num [nodeRadius, listMin, listMax, min_def, max_def]

/-- C9 witness: the general clause applied to the one-size list `[2, 2]`. -/
theorem c9_node_radius_witness :
    ([(2 : ℚ), 2] ≠ []) ∧ nodeRadius [2, 2] 2 = specNodeRadius [2, 2] 2 :=
  ⟨by simp, c9_node_radius.1 [2, 2] 2 (by simp)⟩

/-! ## C3: edge filtering and styling -/

/-- The width tier of `styleFor` characterised by the similarity value. -/
theorem styleFor_size_iff (sim : ℚ) :
    ((styleFor sim).2 = 7/2 ↔ sim > 4/5)
    ∧ ((styleFor sim).2 = 5/2 ↔ (1/2 ≤ sim ∧ sim ≤ 4/5))
    ∧ ((styleFor sim).2 = 3/2 ↔ sim < 1/2) := by
  unfold styleFor
  by_cases h1 : sim > 4/5
  · rw [if_pos h1]
    refine ⟨⟨fun _ => h1, fun _ => rfl⟩, ?_, ?_⟩
    · constructor
      · intro h; norm_num at h
      · intro h; linarith [h.2]
    · constructor
      · intro h; norm_num at h
      · intro h; linarith
  · rw [if_neg h1]
    push_neg at h1
    by_cases h2 : sim ≥ 1/2
    · rw [if_pos h2]
      refine ⟨?_, ⟨fun _ => ⟨h2, h1⟩, fun _ => rfl⟩, ?_⟩
      · constructor
        · intro h; norm_num at h
        · intro h; linarith
      · constructor
        · intro h; norm_num at h
        · intro h; linarith
    · rw [if_neg h2]
      push_neg at h2
      refine ⟨?_, ?_, ⟨fun _ => h2, fun _ => rfl⟩⟩
      · constructor
        · intro h; norm_num at h
        · intro h; linarith
      · constructor
        · intro h; norm_num at h
        · intro h; linarith [h.1]

/-- C3 counterexample: an edge whose similarity is present and equal to `0`
is included at threshold `3/10` — `0 || 0.5` promotes it to the medium tier —
although `0 < 3/10`, so inclusion is not `similarity ≥ threshold`. -/
theorem c3_zero_similarity_counterexample :
    (filterStyleEdges [⟨1, 2, some 0⟩] (3/10)).length = 1 ∧ ¬ ((0 : ℚ) ≥ 3/10) := by
  constructor
  · norm_num [filterStyleEdges, List.filterMap_cons, edgeIncluded, effSim]
  · norm_num

/-- C3 (amended): inclusion and tiering are driven by the effective
similarity `edge.similarity || 0.5`, which replaces a missing — or, `0` being
falsy in JS, an exactly zero — similarity by `0.5`.  For a present non-zero
similarity, inclusion is exactly `similarity ≥ threshold`; every included
edge is styled width `7/2` iff its effective similarity exceeds `4/5`, width
`5/2` iff it lies in `[1/2, 4/5]`, width `3/2` iff it is below `1/2`,
independently of the threshold. -/
theorem c3_edge_filter_amended :
    (∀ (a b : ℕ) (s t : ℚ), s ≠ 0 →
      (edgeIncluded ⟨a, b, some s⟩ t = true ↔ s ≥ t))
    ∧ (∀ (a b : ℕ) (t : ℚ), edgeIncluded ⟨a, b, none⟩ t = true ↔ (1/2 : ℚ) ≥ t)
    ∧ (∀ (a b : ℕ) (t : ℚ), edgeIncluded ⟨a, b, some 0⟩ t = edgeIncluded ⟨a, b, none⟩ t)
    ∧ (∀ (edges : List GEdge) (t : ℚ) (se : StyledEdge), se ∈ filterStyleEdges edges t →
        ((se.size = 7/2 ↔ se.similarity > 4/5)
          ∧ (se.size = 5/2 ↔ (1/2 ≤ se.similarity ∧ se.similarity ≤ 4/5))
          ∧ (se.size = 3/2 ↔ se.similarity < 1/2))) := by
  refine ⟨?_, ?_, ?_, ?_⟩
  · intro a b s t hs
    simp [edgeIncluded, effSim, hs]
  · intro a b t
    simp [edgeIncluded, effSim]
  · intro a b t
    simp [edgeIncluded, effSim]
  · intro edges t se hse
    simp only [filterStyleEdges, List.mem_filterMap] at hse
    obtain ⟨e, _, hm⟩ := hse
    split at hm
    · cases Option.some.inj hm
      exact styleFor_size_iff (effSim e.similarity)
    · exact Option.noConfusion hm

/-- C3 witness: the non-zero-similarity clause at similarity `2`, threshold
`2`, and the tier clause at the edge that that input produces. -/
theorem c3_edge_filter_amended_witness :
    ((2 : ℚ) ≠ 0 ∧ (edgeIncluded ⟨1, 2, some 2⟩ 2 = true ↔ (2 : ℚ) ≥ 2))
    ∧ ∃ se ∈ filterStyleEdges [⟨1, 2, some 2⟩] 2,
        (se.size = 7/2 ↔ se.similarity > 4/5)
        ∧ (se.size = 5/2 ↔ (1/2 ≤ se.similarity ∧ se.similarity ≤ 4/5))
        ∧ (se.size = 3/2 ↔ se.similarity < 1/2) := by
  have h2 : (2 : ℚ) ≠ 0 := by norm_num
  have hmem : (⟨1, 2, 2, "rgba(20, 20, 20, 0.9)", 7/2⟩ : StyledEdge) ∈
      filterStyleEdges [⟨1, 2, some 2⟩] 2 := by
    norm_num [filterStyleEdges, List.filterMap_cons, edgeIncluded, effSim, styleFor]
  exact ⟨⟨h2, c3_edge_filter_amended.1 1 2 2 2 h2⟩,
    ⟨_, hmem, c3_edge_filter_amended.2.2.2 [⟨1, 2, some 2⟩] 2 _ hmem⟩⟩

/-! ## C8: path-highlight double toggle -/

/-- C8: from the unhighlighted state (`isPathHighlighted = false`, every node
and link class off), clicking any node `n` and then any node `m` returns the
tree to exactly the unhighlighted state: one click in the highlighted state
always clears, whichever node is clicked. -/
theorem c8_path_highlight_double_toggle :
    ∀ (v : TreeView) (fuel n m : ℕ),
      onCircleClick v fuel m (onCircleClick v fuel n (clearPathHighlight v)) =
        clearPathHighlight v
      ∧ (∀ p ∈ (clearPathHighlight v).cls.nodeCls, p.2 = (false, false))
      ∧ (∀ p ∈ (clearPathHighlight v).cls.linkCls, p.2 = (false, false)) := by
  intro v fuel n m
  refine ⟨?_, ?_, ?_⟩
  · simp [onCircleClick, clearPathHighlight, highlightPathToRoot]
  · intro p hp
    simp only [clearPathHighlight, allClassesOff, List.mem_map] at hp
    obtain ⟨i, _, rfl⟩ := hp
    rfl
  · intro p hp
    simp only [clearPathHighlight, allClassesOff, List.mem_map] at hp
    obtain ⟨l, _, rfl⟩ := hp
    rfl

/-! ## C10: rendering a new tree keeps the highlight flag -/

/-- C10: `renderConceptTree` never writes `isPathHighlighted`, so rendering a
fresh tree preserves the flag; when the flag was left `true` by a previous
tree, the first circle click on the new tree takes the clear branch and
yields the unhighlighted state instead of highlighting the clicked node's
root path. -/
theorem c10_stale_highlight_flag :
    ∀ (s : HLState) (cls : HClasses) (v2 : TreeView) (fuel n : ℕ),
      (renderConceptTreeView s v2).isPathHighlighted = s.isPathHighlighted
      ∧ onCircleClick v2 fuel n (renderConceptTreeView ⟨true, cls⟩ v2) =
          clearPathHighlight v2
      ∧ (clearPathHighlight v2).isPathHighlighted = false := by
  intro s cls v2 fuel n
  exact ⟨rfl, by simp [onCircleClick, renderConceptTreeView], rfl⟩

/-! ## C5: stale summary responses -/

/-- C5 counterexample: select cluster A (id `1`, fetch pending), select
cluster B (id `2`) before A's fetch resolves; when A's response arrives the
selection is still B (`some 2`), but the displayed title and summary become
A's response — B's shown texts (`"Cluster B"`, the placeholder) are
overwritten, so A's result is applied, not discarded. -/
theorem c5_stale_summary_counterexample :
    c5FinalState.currentClusterId = some 2
    ∧ c5FinalState.viewTitle = "Stale title A"
    ∧ c5FinalState.viewSummary = "Stale summary A"
    ∧ ("Stale title A" ≠ "Cluster B")
    ∧ ("Stale summary A" ≠ "Generating summary...") := by
  refine ⟨rfl, rfl, rfl, by decide, by decide⟩

/-- C5 (amended): there is no stale-response guard.  For every pair of
clusters and every late response for the first one, the sequence
"select A, select B, A's fetch resolves" leaves the selection at B but
unconditionally writes A's title and summary to the view and caches them
under A's key. -/
theorem c5_stale_summary_amended :
    ∀ (topic : String) (attrsA attrsB : ClusterAttrs) (respA : SummaryResp),
      (resolveSummary
          (showClusterDetails topic (showClusterDetails topic clusterViewInit attrsA) attrsB)
          (kgSummaryCacheKey topic attrsA.originalId) respA).currentClusterId =
        some attrsB.originalId
      ∧ (resolveSummary
          (showClusterDetails topic (showClusterDetails topic clusterViewInit attrsA) attrsB)
          (kgSummaryCacheKey topic attrsA.originalId) respA).viewTitle = respA.title
      ∧ (resolveSummary
          (showClusterDetails topic (showClusterDetails topic clusterViewInit attrsA) attrsB)
          (kgSummaryCacheKey topic attrsA.originalId) respA).viewSummary = respA.summary
      ∧ (resolveSummary
          (showClusterDetails topic (showClusterDetails topic clusterViewInit attrsA) attrsB)
          (kgSummaryCacheKey topic attrsA.originalId) respA).summaryCache.lookup
            (kgSummaryCacheKey topic attrsA.originalId) = some respA := by
  intro topic attrsA attrsB respA
  refine ⟨?_, ?_, ?_, ?_⟩ <;>
    simp [showClusterDetails, resolveSummary, clusterViewInit, List.lookup]

/-! ## C6: concept-hierarchy build errors -/

/-- C6 counterexample: the single node `1` declares the missing child id `2`;
the build is not rejected — the dangling id is dropped by `filter(Boolean)`
and a tree (node `1` with no children) is rendered. -/
theorem c6_dangling_child_counterexample :
    hasDanglingChild c6Nodes = true
    ∧ (renderConceptTree c6Nodes 1).isError = false := by
  constructor <;> rfl

/-- C6 (amended): the build is rejected exactly when the node list is empty
or the declared root id resolves to no node; a child id that resolves to no
node is silently dropped instead of being rejected. -/
theorem c6_concept_build_amended :
    ∀ (nodes : List CNode) (rootId : ℕ),
      (renderConceptTree nodes rootId).isError =
        (nodes.isEmpty || (nodeMapLookup nodes rootId).isNone) := by
  intro nodes rootId
  unfold renderConceptTree
  by_cases he : nodes.isEmpty
  · simp [he, ConceptRender.isError]
  · cases hl : nodeMapLookup nodes rootId <;>
      simp [he, hl, ConceptRender.isError]

/-! ## C7: the summary cache key -/

/-- Sorting is invariant under permutation of the input: two story-id lists
with the same membership produce the same sorted list. -/
theorem jsSortStrings_eq_of_perm {l1 l2 : List String} (h : l1.Perm l2) :
    jsSortStrings l1 = jsSortStrings l2 := by
  unfold jsSortStrings
  have htrans : ∀ a b c : String,
      decide (a ≤ b) = true → decide (b ≤ c) = true → decide (a ≤ c) = true :=
    fun a b c hab hbc =>
      decide_eq_true (le_trans (of_decide_eq_true hab) (of_decide_eq_true hbc))
  have htotal : ∀ a b : String, (decide (a ≤ b) || decide (b ≤ a)) = true := by
    intro a b
    rcases le_total a b with hab | hba
    · simp [hab]
    · simp [hba]
  have hs1 : List.Sorted (· ≤ ·) (l1.mergeSort fun a b => decide (a ≤ b)) :=
    (List.sorted_mergeSort htrans htotal l1).imp fun hab => of_decide_eq_true hab
  have hs2 : List.Sorted (· ≤ ·) (l2.mergeSort fun a b => decide (a ≤ b)) :=
    (List.sorted_mergeSort htrans htotal l2).imp fun hab => of_decide_eq_true hab
  exact List.eq_of_perm_of_sorted
    (((List.mergeSort_perm l1 _).trans h).trans (List.mergeSort_perm l2 _).symm) hs1 hs2

/-- The cache key only depends on the story-id membership, not on its order. -/
theorem _getCacheKey_perm (searchId : String) (clusterId : ℕ) {l1 l2 : List String}
    (h : l1.Perm l2) :
    _getCacheKey searchId clusterId l1 = _getCacheKey searchId clusterId l2 := by
  unfold _getCacheKey
  rw [jsSortStrings_eq_of_perm h]

/-- C7: the summary cache key is `search_id + cluster_id + sorted story ids`,
so of two requests with the same `search_id` and `cluster_id` whose story-id
lists are permutations of each other, the first (on a cold cache) invokes the
Summary Service, the second is served from the cache — the service is invoked
only once and both show the same summary. -/
theorem c7_summary_cache_key (svc : String → ℕ → List String → SummaryResp)
    (searchId : String) (clusterId : ℕ) (ids1 ids2 : List String)
    (hperm : ids1.Perm ids2) :
    (requestClusterSummary svc [] searchId clusterId ids1).invokedService = true
    ∧ (requestClusterSummary svc
        (requestClusterSummary svc [] searchId clusterId ids1).cache
        searchId clusterId ids2).invokedService = false
    ∧ (requestClusterSummary svc
        (requestClusterSummary svc [] searchId clusterId ids1).cache
        searchId clusterId ids2).shown =
      (requestClusterSummary svc [] searchId clusterId ids1).shown := by
  have hkey : _getCacheKey searchId clusterId ids2 = _getCacheKey searchId clusterId ids1 :=
    _getCacheKey_perm searchId clusterId hperm.symm
  refine ⟨rfl, ?_, ?_⟩ <;>
    simp [requestClusterSummary, hkey, List.lookup]

/-- C7 witness: story ids `["b", "a"]` and `["a", "b"]` with a constant
service. -/
theorem c7_summary_cache_key_witness :
    (["b", "a"] : List String).Perm ["a", "b"]
    ∧ ((requestClusterSummary (fun _ _ _ => ⟨"T", "S"⟩) [] "s1" 3 ["b", "a"]).invokedService = true
      ∧ (requestClusterSummary (fun _ _ _ => ⟨"T", "S"⟩)
          (requestClusterSummary (fun _ _ _ => ⟨"T", "S"⟩) [] "s1" 3 ["b", "a"]).cache
          "s1" 3 ["a", "b"]).invokedService = false
      ∧ (requestClusterSummary (fun _ _ _ => ⟨"T", "S"⟩)
          (requestClusterSummary (fun _ _ _ => ⟨"T", "S"⟩) [] "s1" 3 ["b", "a"]).cache
          "s1" 3 ["a", "b"]).shown =
        (requestClusterSummary (fun _ _ _ => ⟨"T", "S"⟩) [] "s1" 3 ["b", "a"]).shown) :=
  have hp : (["b", "a"] : List String).Perm ["a", "b"] := List.Perm.swap "a" "b" []
  ⟨hp, c7_summary_cache_key (fun _ _ _ => ⟨"T", "S"⟩) "s1" 3 ["b", "a"] ["a", "b"] hp⟩

/-! ## C4: the position cache across topics -/

/-- A single resting node feels no force: one simulation iteration fixes it. -/
theorem layoutIter_single (sqrt : ℚ → ℚ) (k : ℕ) (x y : ℚ) :
    layoutIter sqrt [] [⟨k, x, y, 0, 0⟩] = [⟨k, x, y, 0, 0⟩] := by
  simp [layoutIter, List.ordPairs]

/-- Hence the whole 50-iteration layout fixes a single resting node. -/
theorem applyForceLayout_single (sqrt : ℚ → ℚ) (k : ℕ) (x y : ℚ) :
    applyForceLayout sqrt [⟨k, x, y, 0, 0⟩] [] = [⟨k, x, y, 0, 0⟩] := by
  unfold applyForceLayout
  exact Function.iterate_fixed (layoutIter_single sqrt k x y) 50

/-- First render of a one-node, zero-edge graph: the node keeps its seeded
position and the cache holds exactly that position. -/
theorem renderGraph_single (sqrt : ℚ → ℚ) (seed : ℕ → ℚ × ℚ) (t : ℚ) (n : GNode) :
    renderGraph sqrt seed ⟨[n], []⟩ t none =
      (⟨[⟨n.id, n.label, 5, n.color, n.id, n.size, n.avg_engagement, (seed 0).1, (seed 0).2⟩],
         []⟩,
        some [(n.id, (seed 0).1, (seed 0).2)]) := by
  simp [renderGraph, buildSigmaNodes, filterStyleEdges, nodeRadius, listMin, listMax,
    applyForceLayout_single]

/-- A re-render that finds cached positions leaves the cache untouched. -/
theorem renderGraph_snd_some (sqrt : ℚ → ℚ) (seed : ℕ → ℚ × ℚ) (g : GraphData) (t : ℚ)
    (c : PosCache) : (renderGraph sqrt seed g t (some c)).2 = some c := rfl

/-- C4 counterexample: `calculatedPositions` is one shared module variable.
After generating a graph for the bottom topic its node (id `5`) has a cached
position; generating a graph for the *top* topic resets that same cache, so
bottom's cached position is destroyed — the bottom slot's cache is cleared by
a fetch for the other topic. -/
theorem c4_shared_cache_counterexample :
    (c4S1.cachedPos 5).isSome = true ∧ c4S2.cachedPos 5 = none := by
  have h1 : c4S1.calculatedPositions = some [(5, 10, 20)] := by
    simp [c4S1, kgStep, kgInit, c4GraphB, renderGraph_single, KGState.setGraphDataFor, c4Seed]
  have h2 : c4S2.calculatedPositions = some [(7, 10, 20)] := by
    simp [c4S2, kgStep, c4GraphA, renderGraph_single, KGState.setGraphDataFor, c4Seed]
  constructor
  · simp [KGState.cachedPos, h1, List.lookup]
  · simp [KGState.cachedPos, h2, List.lookup]

/-- C4 (amended): the position cache is a *single* slot shared by the two
topics.  A threshold change or a topic switch never alters an existing cache;
fetching a brand-new graph for either topic unconditionally replaces the
shared cache with the new graph's layout positions (destroying whatever the
other topic had cached); the other topic's own graph-data slot is untouched. -/
theorem c4_position_cache_amended (sqrt : ℚ → ℚ) (seed : ℕ → ℚ × ℚ) (st : KGState) :
    (∀ v : ℚ, st.calculatedPositions.isSome = true →
      (kgStep sqrt seed st (.thresholdChange v)).calculatedPositions =
        st.calculatedPositions)
    ∧ (∀ t : Topic, st.calculatedPositions.isSome = true →
      (kgStep sqrt seed st (.switchTopic t)).calculatedPositions =
        st.calculatedPositions)
    ∧ (∀ (t : Topic) (g : GraphData),
      (kgStep sqrt seed st (.generateGraph t g)).calculatedPositions =
        (renderGraph sqrt seed g st.currentThreshold none).2)
    ∧ (∀ g : GraphData,
      (kgStep sqrt seed st (.generateGraph .top g)).graphDataBottom = st.graphDataBottom)
    ∧ (∀ g : GraphData,
      (kgStep sqrt seed st (.generateGraph .bottom g)).graphDataTop = st.graphDataTop) := by
  refine ⟨?_, ?_, ?_, ?_, ?_⟩
  · intro v hsome
    obtain ⟨c, hc⟩ := Option.isSome_iff_exists.mp hsome
    cases hg : st.currentGraphData <;>
      simp [kgStep, hg, hc, renderGraph_snd_some]
  · intro t hsome
    obtain ⟨c, hc⟩ := Option.isSome_iff_exists.mp hsome
    cases hg : st.graphDataFor t <;>
      simp [kgStep, hg, hc, renderGraph_snd_some]
  · intro t g
    rfl
  · intro g
    rfl
  · intro g
    rfl

/-- C4 witness: the threshold-change clause applied to the post-generation
state `c4S1`, whose cache is populated. -/
theorem c4_position_cache_amended_witness :
    c4S1.calculatedPositions.isSome = true
    ∧ (kgStep c4Sqrt c4Seed c4S1 (.thresholdChange 1)).calculatedPositions =
      c4S1.calculatedPositions :=
  have hs : c4S1.calculatedPositions.isSome = true := by
    simp [c4S1, kgStep, kgInit, c4GraphB, renderGraph_single, KGState.setGraphDataFor, c4Seed]
  ⟨hs, (c4_position_cache_amended c4Sqrt c4Seed c4S1).1 1 hs⟩

/-! ## C2: positions are computed once and reused across thresholds -/

theorem length_iterate_layoutIter (sqrt : ℚ → ℚ) (es : List LayoutEdge) :
    ∀ (k : ℕ) (ns : List LayoutNode), ((layoutIter sqrt es)^[k] ns).length = ns.length := by
  intro k
  induction k with
  | zero => intro ns; rfl
  | succ k ih =>
    intro ns
    rw [Function.iterate_succ_apply, ih (layoutIter sqrt es ns)]
    simp [layoutIter]

theorem length_applyForceLayout (sqrt : ℚ → ℚ) (ns : List LayoutNode)
    (es : List LayoutEdge) : (applyForceLayout sqrt ns es).length = ns.length :=
  length_iterate_layoutIter sqrt es 50 ns

/-- Looking a node's id up in the position map written back by the first
render returns that node's own position (ids are distinct). -/
theorem lookup_posCache_self (l : List SNode)
    (hn : (l.map fun m => m.originalId).Nodup) :
    ∀ n ∈ l, (l.map fun m => (m.originalId, m.x, m.y)).lookup n.originalId =
      some (n.x, n.y) := by
  induction l with
  | nil => intro n hn2; cases hn2
  | cons a as ih =>
    intro n hn2
    simp only [List.map_cons, List.nodup_cons] at hn
    rcases List.mem_cons.mp hn2 with rfl | hmem
    · simp [List.lookup]
    · have hne : (n.originalId == a.originalId) = false := by
        apply beq_eq_false_iff_ne.mpr
        intro he
        exact hn.1 (by rw [← he]; exact List.mem_map_of_mem (fun m => m.originalId) hmem)
      simp only [List.map_cons, List.lookup, hne]
      exact ih hn.2 n hmem

theorem buildSigmaNodes_cached (g : GraphData) (seed seed2 : ℕ → ℚ × ℚ)
    (hnd : (g.nodes.map fun n => n.id).Nodup)
    (ln2 : List LayoutNode) (hlen : ln2.length = g.nodes.length) :
    buildSigmaNodes g
      (some ((List.zipWith (fun (n : SNode) (l : LayoutNode) => { n with x := l.x, y := l.y })
        (buildSigmaNodes g none seed) ln2).map fun m => (m.originalId, m.x, m.y))) seed2 =
      List.zipWith (fun (n : SNode) (l : LayoutNode) => { n with x := l.x, y := l.y })
        (buildSigmaNodes g none seed) ln2 := by
  have hlenB : (buildSigmaNodes g none seed).length = g.nodes.length := by
    simp [buildSigmaNodes]
  have hlenZ : (List.zipWith (fun (n : SNode) (l : LayoutNode) => { n with x := l.x, y := l.y })
      (buildSigmaNodes g none seed) ln2).length = g.nodes.length := by
    rw [List.length_zipWith, hlenB, hlen, min_self]
  have hmapoid : (List.zipWith (fun (n : SNode) (l : LayoutNode) => { n with x := l.x, y := l.y })
      (buildSigmaNodes g none seed) ln2).map (fun m => m.originalId) =
      g.nodes.map fun n => n.id := by
    apply List.ext_getElem
    · rw [List.length_map, hlenZ, List.length_map]
    · intro j hj1 hj2
      simp only [List.getElem_map, List.getElem_zipWith, buildSigmaNodes, List.getElem_mapIdx]
  have hndZ : ((List.zipWith (fun (n : SNode) (l : LayoutNode) => { n with x := l.x, y := l.y })
      (buildSigmaNodes g none seed) ln2).map (fun m => m.originalId)).Nodup := by
    rw [hmapoid]; exact hnd
  apply List.ext_getElem
  · rw [hlenZ]; simp [buildSigmaNodes]
  · intro i h1 h2
    have hi : i < g.nodes.length := by
      have := h1
      simpa [buildSigmaNodes] using this
    have hiL : i < ln2.length := by rw [hlen]; exact hi
    have hoid_i :
        ((List.zipWith (fun (n : SNode) (l : LayoutNode) => { n with x := l.x, y := l.y })
          (buildSigmaNodes g none seed) ln2)[i]).originalId = g.nodes[i].id := by
      have hiM : i < ((List.zipWith (fun (n : SNode) (l : LayoutNode) =>
          { n with x := l.x, y := l.y }) (buildSigmaNodes g none seed) ln2).map
            (fun m => m.originalId)).length := by
        rw [List.length_map]; exact h2
      have hiN : i < (g.nodes.map fun n => n.id).length := by
        rw [List.length_map]; exact hi
      have h3 := congrArg (fun l => l[i]?) hmapoid
      simp only [List.getElem?_eq_getElem hiM, List.getElem?_eq_getElem hiN] at h3
      have h4 := Option.some.inj h3
      simpa using h4
    have hlook : (((List.zipWith (fun (n : SNode) (l : LayoutNode) =>
        { n with x := l.x, y := l.y }) (buildSigmaNodes g none seed) ln2).map
          fun m => (m.originalId, m.x, m.y)).lookup (g.nodes[i].id)) =
        some ((((List.zipWith (fun (n : SNode) (l : LayoutNode) =>
          { n with x := l.x, y := l.y }) (buildSigmaNodes g none seed) ln2))[i]).x,
          (((List.zipWith (fun (n : SNode) (l : LayoutNode) =>
          { n with x := l.x, y := l.y }) (buildSigmaNodes g none seed) ln2))[i]).y) := by
      rw [← hoid_i]
      exact lookup_posCache_self _ hndZ _ (List.getElem_mem h2)
    simp only [buildSigmaNodes, List.getElem_mapIdx] at hlook ⊢
    rw [hlook]
    simp only [List.getElem_zipWith, List.getElem_mapIdx]

/-- C2: for a freshly generated graph the force simulation runs on the first
render only (a render that finds cached positions returns the cache
untouched); a second render of the same graph under any other threshold
rebuilds exactly the same node list — every node's cached position is reused
unchanged, so both renders show identical coordinates. -/
theorem c2_threshold_rerender_stable (sqrt : ℚ → ℚ) (seed : ℕ → ℚ × ℚ)
    (g : GraphData) (t1 t2 : ℚ)
    (h : (g.nodes.map fun n => n.id).Nodup) :
    (renderGraph sqrt seed g t2 (renderGraph sqrt seed g t1 none).2).1.nodes =
      (renderGraph sqrt seed g t1 none).1.nodes
    ∧ (renderGraph sqrt seed g t2 (renderGraph sqrt seed g t1 none).2).2 =
      (renderGraph sqrt seed g t1 none).2
    ∧ (∀ (t : ℚ) (c : PosCache), (renderGraph sqrt seed g t (some c)).2 = some c) := by
  refine ⟨?_, rfl, fun t c => rfl⟩
  have hlen : (applyForceLayout sqrt
      ((buildSigmaNodes g none seed).map fun n => LayoutNode.mk n.key n.x n.y 0 0)
      ((filterStyleEdges g.edges t1).map fun e => ⟨e.source, e.target⟩)).length =
      g.nodes.length := by
    rw [length_applyForceLayout, List.length_map]
    simp [buildSigmaNodes]
  exact buildSigmaNodes_cached g seed seed h _ hlen

/-- C2 witness: a two-node graph with distinct ids, thresholds `1/2` and
`1`. -/
theorem c2_threshold_rerender_stable_witness :
    ((c4GraphB.nodes.map fun n => n.id).Nodup)
    ∧ ((renderGraph c4Sqrt c4Seed c4GraphB 1 (renderGraph c4Sqrt c4Seed c4GraphB (1/2) none).2).1.nodes =
        (renderGraph c4Sqrt c4Seed c4GraphB (1/2) none).1.nodes) :=
  have hnd : ((c4GraphB.nodes.map fun n => n.id).Nodup) := by
    simp [c4GraphB]
  ⟨hnd, (c2_threshold_rerender_stable c4Sqrt c4Seed c4GraphB (1/2) 1 hnd).1⟩

/-! ## C1: the force layout iteration against its specification -/

theorem guardedDist_eq (sqrt : ℚ → ℚ) (dx dy : ℚ) :
    guardedDist sqrt dx dy = specZeroGuard (sqrt (dx * dx + dy * dy)) := rfl

/-- Folding pointwise accumulations equals the pointwise sum of the deltas. -/
theorem foldl_applyDeltas {α : Type} (l : List α) (d : α → ℕ → ℚ × ℚ) (f0 : Force)
    (k : ℕ) :
    (l.foldl (fun f a => applyDeltas f (d a)) f0) k = f0 k + (l.map fun a => d a k).sum := by
  induction l generalizing f0 with
  | nil => simp
  | cons a as ih =>
    simp only [List.foldl_cons, List.map_cons, List.sum_cons]
    rw [ih]
    simp [applyDeltas, add_assoc]

theorem mem_ordPairs {α : Type} {p : α × α} :
    ∀ {l : List α}, p ∈ List.ordPairs l → p.1 ∈ l ∧ p.2 ∈ l := by
  intro l
  induction l with
  | nil => intro hp; cases hp
  | cons a rest ih =>
    intro hp
    simp only [List.ordPairs, List.mem_append, List.mem_map] at hp
    rcases hp with ⟨b, hb, he⟩ | hp2
    · rw [← he]
      exact ⟨List.mem_cons_self _ _, List.mem_cons_of_mem _ hb⟩
    · have h2 := ih hp2
      exact ⟨List.mem_cons_of_mem _ h2.1, List.mem_cons_of_mem _ h2.2⟩

/-- In a key-nodup list, summing a per-key selector picks the unique match. -/
theorem sum_if_key {l : List LayoutNode} (hn : (l.map fun m => m.key).Nodup)
    {n : LayoutNode} (hmem : n ∈ l) (g : LayoutNode → ℚ × ℚ) :
    (l.map fun m => if n.key = m.key then g m else 0).sum = g n := by
  induction l with
  | nil => cases hmem
  | cons a as ih =>
    simp only [List.map_cons, List.nodup_cons] at hn
    simp only [List.map_cons, List.sum_cons]
    rcases List.mem_cons.mp hmem with rfl | hmem2
    · rw [if_pos rfl]
      have hrest : (as.map fun m => if n.key = m.key then g m else 0).sum = 0 := by
        apply List.sum_eq_zero
        intro x hx
        simp only [List.mem_map] at hx
        obtain ⟨m, hm, rfl⟩ := hx
        rw [if_neg]
        intro hk
        exact hn.1 (by rw [hk]; exact List.mem_map_of_mem (fun m => m.key) hm)
      rw [hrest, add_zero]
    · rw [if_neg, ih hn.2 hmem2, zero_add]
      intro hk
      exact hn.1 (by rw [← hk]; exact List.mem_map_of_mem (fun m => m.key) hmem2)

/-- Keys identify nodes in a key-nodup list. -/
theorem key_unique {l : List LayoutNode} (hn : (l.map fun m => m.key).Nodup)
    {n m : LayoutNode} (hnl : n ∈ l) (hml : m ∈ l) (hk : n.key = m.key) : n = m := by
  induction l with
  | nil => cases hnl
  | cons a as ih =>
    simp only [List.map_cons, List.nodup_cons] at hn
    rcases List.mem_cons.mp hnl with rfl | hn2 <;> rcases List.mem_cons.mp hml with rfl | hm2
    · rfl
    · exact absurd (by rw [hk]; exact List.mem_map_of_mem (fun m => m.key) hm2) hn.1
    · exact absurd (by rw [← hk]; exact List.mem_map_of_mem (fun m => m.key) hn2) hn.1
    · exact ih hn.2 hn2 hm2

/-- The lookup `nodes.find(n => n.key === s)` returns the node itself when the node is in
the list, has that key, and keys are distinct. -/
theorem find_key_self {l : List LayoutNode} (hn : (l.map fun m => m.key).Nodup)
    {n : LayoutNode} (hmem : n ∈ l) {s : ℕ} (hk : n.key = s) :
    l.find? (fun m => m.key == s) = some n := by
  rcases hfind : l.find? (fun m => m.key == s) with _ | m
  · rw [List.find?_eq_none] at hfind
    exact absurd (by simpa using hk) (hfind n hmem)
  · have hm1 : m ∈ l := List.mem_of_find?_eq_some hfind
    have hm2 : m.key = s := by simpa using List.find?_some hfind
    rw [key_unique hn hmem hm1 (by rw [hk, hm2])]
    exact hfind


/-- The first member of a pair receives, from that pair, exactly the
specification's repulsion of the second member on it. -/
theorem repulsionDelta_head (sqrt : ℚ → ℚ) (u b : LayoutNode) (hne : u.key ≠ b.key) :
    repulsionDelta sqrt (u, b) u.key = specRepTerm specZeroGuard sqrt u b := by
  have harg : (b.x - u.x) * (b.x - u.x) + (b.y - u.y) * (b.y - u.y) =
      (u.x - b.x) * (u.x - b.x) + (u.y - b.y) * (u.y - b.y) := by ring
  simp only [repulsionDelta, specRepTerm, guardedDist_eq]
  rw [if_pos trivial, if_neg hne, add_zero, harg]
  simp only [Prod.mk.injEq]
  constructor <;> ring

/-- A key different from the pair's first member receives the repulsion of
the first member exactly when it is the second member's key. -/
theorem repulsionDelta_other (sqrt : ℚ → ℚ) (u b : LayoutNode) (k : ℕ)
    (hne : k ≠ u.key) :
    repulsionDelta sqrt (u, b) k =
      if k = b.key then specRepTerm specZeroGuard sqrt b u else 0 := by
  simp only [repulsionDelta, specRepTerm, guardedDist_eq]
  rw [if_neg hne, zero_add]

theorem ordPairs_repulsion_head (sqrt : ℚ → ℚ) (a : LayoutNode)
    (rest : List LayoutNode) (hka : a.key ∉ rest.map fun m => m.key) :
    ((List.ordPairs (a :: rest)).map fun p => repulsionDelta sqrt p a.key).sum =
      specRepulsionOn specZeroGuard sqrt (a :: rest) a := by
  simp only [List.ordPairs, List.map_append, List.sum_append, List.map_map]
  have hzero : ((List.ordPairs rest).map fun p => repulsionDelta sqrt p a.key).sum = 0 := by
    apply List.sum_eq_zero
    intro x hx
    simp only [List.mem_map] at hx
    obtain ⟨p, hp, rfl⟩ := hx
    have hp12 := mem_ordPairs hp
    have h1 : a.key ≠ p.1.key := fun hk =>
      hka (by rw [hk]; exact List.mem_map_of_mem (fun m => m.key) hp12.1)
    have h2 : a.key ≠ p.2.key := fun hk =>
      hka (by rw [hk]; exact List.mem_map_of_mem (fun m => m.key) hp12.2)
    simp [repulsionDelta, if_neg h1, if_neg h2]
  rw [hzero, add_zero]
  have hcongr : rest.map ((fun p => repulsionDelta sqrt p a.key) ∘ fun b => (a, b)) =
      rest.map (specRepTerm specZeroGuard sqrt a) := by
    apply List.map_congr_left
    intro b hb
    have hne : a.key ≠ b.key := fun hk =>
      hka (by rw [hk]; exact List.mem_map_of_mem (fun m => m.key) hb)
    simpa using repulsionDelta_head sqrt a b hne
  rw [hcongr]
  unfold specRepulsionOn
  have hfr : rest.filter (fun m => m.key ≠ a.key) = rest := by
    apply List.filter_eq_self.mpr
    intro m hm
    apply decide_eq_true
    intro hk
    exact hka (by rw [← hk]; exact List.mem_map_of_mem (fun m => m.key) hm)
  simp only [List.filter_cons]
  rw [if_neg (by simp), hfr]

theorem ordPairs_repulsion_tail (sqrt : ℚ → ℚ) (a : LayoutNode)
    (rest : List LayoutNode) (n : LayoutNode)
    (hka : a.key ∉ rest.map fun m => m.key)
    (hnd : (rest.map fun m => m.key).Nodup) (hmem : n ∈ rest) :
    ((List.ordPairs (a :: rest)).map fun p => repulsionDelta sqrt p n.key).sum =
      specRepTerm specZeroGuard sqrt n a +
        ((List.ordPairs rest).map fun p => repulsionDelta sqrt p n.key).sum := by
  simp only [List.ordPairs, List.map_append, List.sum_append, List.map_map]
  congr 1
  have hne : n.key ≠ a.key := fun hk =>
    hka (by rw [← hk]; exact List.mem_map_of_mem (fun m => m.key) hmem)
  have hcongr : rest.map ((fun p => repulsionDelta sqrt p n.key) ∘ fun b => (a, b)) =
      rest.map (fun b => if n.key = b.key then specRepTerm specZeroGuard sqrt b a else 0) := by
    apply List.map_congr_left
    intro b hb
    simpa using repulsionDelta_other sqrt a b n.key hne
  rw [hcongr, sum_if_key hnd hmem (fun b => specRepTerm specZeroGuard sqrt b a)]

/-- Summing the code's pairwise repulsion updates at a node's key gives the
specification's per-node repulsion sum. -/
theorem ordPairs_repulsion_sum (sqrt : ℚ → ℚ) :
    ∀ (l : List LayoutNode), ((l.map fun m => m.key).Nodup) →
      ∀ n ∈ l, ((List.ordPairs l).map fun p => repulsionDelta sqrt p n.key).sum =
        specRepulsionOn specZeroGuard sqrt l n := by
  intro l
  induction l with
  | nil => intro _ n hn; cases hn
  | cons a rest ih =>
    intro hnd n hmem
    simp only [List.map_cons, List.nodup_cons] at hnd
    rcases List.mem_cons.mp hmem with heq | hmem2
    · rw [heq]
      exact ordPairs_repulsion_head sqrt a rest hnd.1
    · rw [ordPairs_repulsion_tail sqrt a rest n hnd.1 hnd.2 hmem2, ih hnd.2 n hmem2]
      unfold specRepulsionOn
      have hne : a.key ≠ n.key := fun hk =>
        hnd.1 (by rw [hk]; exact List.mem_map_of_mem (fun m => m.key) hmem2)
      simp only [List.filter_cons]
      rw [if_pos (by simpa using hne), List.map_cons, List.sum_cons]

/-- A spring pull is antisymmetric in its endpoints. -/
theorem specSpringPull_symm (sqrt : ℚ → ℚ) (u w : LayoutNode) :
    specSpringPull specZeroGuard sqrt w u = - specSpringPull specZeroGuard sqrt u w := by
  have harg : (u.x - w.x) * (u.x - w.x) + (u.y - w.y) * (u.y - w.y) =
      (w.x - u.x) * (w.x - u.x) + (w.y - u.y) * (w.y - u.y) := by ring
  simp only [specSpringPull]
  rw [harg]
  simp only [Prod.neg_mk, Prod.mk.injEq]
  constructor <;> ring

/-- The code's spring update at a node's key equals the specification's
per-edge spring term at that node. -/
theorem springDelta_eq_specSpringTerm (sqrt : ℚ → ℚ) (l : List LayoutNode)
    (hnd : (l.map fun m => m.key).Nodup) (n : LayoutNode) (hmem : n ∈ l)
    (e : LayoutEdge) :
    springDelta sqrt l e n.key = specSpringTerm specZeroGuard sqrt l e n := by
  unfold springDelta specSpringTerm
  rcases hs : l.find? (fun m => m.key == e.source) with _ | n1 <;>
    rcases ht : l.find? (fun m => m.key == e.target) with _ | n2
  · have hns : ¬ n.key = e.source := fun hk => by
      have h0 := List.find?_eq_none.mp hs n hmem
      simp [hk] at h0
    simp [hs, ht, hns]
  · have hns : ¬ n.key = e.source := fun hk => by
      have h0 := List.find?_eq_none.mp hs n hmem
      simp [hk] at h0
    simp [hs, ht, hns]
  · have hnt : ¬ n.key = e.target := fun hk => by
      have h0 := List.find?_eq_none.mp ht n hmem
      simp [hk] at h0
    simp [hs, ht, hnt]
  · have hn1l : n1 ∈ l := List.mem_of_find?_eq_some hs
    have hk1 : n1.key = e.source := by simpa using List.find?_some hs
    have hn2l : n2 ∈ l := List.mem_of_find?_eq_some ht
    have hk2 : n2.key = e.target := by simpa using List.find?_some ht
    simp only [hs, ht]
    rw [hk1, hk2]
    congr 1
    · by_cases hcs : n.key = e.source
      · rw [if_pos hcs, if_pos hcs]
        rw [key_unique hnd hmem hn1l (hcs.trans hk1.symm)]
        simp only [specSpringPull, guardedDist_eq]
      · rw [if_neg hcs, if_neg hcs]
    · by_cases hct : n.key = e.target
      · rw [if_pos hct, if_pos hct]
        rw [key_unique hnd hmem hn2l (hct.trans hk2.symm),
          specSpringPull_symm sqrt n1 n2]
        simp only [specSpringPull, guardedDist_eq, Prod.neg_mk]
      · rw [if_neg hct, if_neg hct]

/-- One code iteration equals one specification iteration (with the
zero-replacement distance guard) whenever node keys are distinct. -/
theorem layoutIter_eq_specIteration (sqrt : ℚ → ℚ) (edges : List LayoutEdge)
    (nodes : List LayoutNode) (hnd : (nodes.map fun m => m.key).Nodup) :
    layoutIter sqrt edges nodes = specIteration specZeroGuard sqrt edges nodes := by
  unfold layoutIter specIteration
  apply List.map_congr_left
  intro n hmem
  have hforce : (edges.foldl (fun f e => applyDeltas f (springDelta sqrt nodes e))
      ((List.ordPairs nodes).foldl (fun f p => applyDeltas f (repulsionDelta sqrt p))
        (fun _ => (0, 0)))) n.key =
      specRepulsionOn specZeroGuard sqrt nodes n +
        specSpringOn specZeroGuard sqrt nodes edges n := by
    rw [foldl_applyDeltas, foldl_applyDeltas,
      ordPairs_repulsion_sum sqrt nodes hnd n hmem]
    have hmapS : edges.map (fun e => springDelta sqrt nodes e n.key) =
        edges.map (fun e => specSpringTerm specZeroGuard sqrt nodes e n) :=
      List.map_congr_left fun e _ => springDelta_eq_specSpringTerm sqrt nodes hnd n hmem e
    rw [hmapS]
    unfold specSpringOn
    rw [Prod.mk_zero_zero, zero_add]
  rw [hforce]

/-- The update step never changes node keys. -/
theorem layoutIter_map_key (sqrt : ℚ → ℚ) (edges : List LayoutEdge)
    (nodes : List LayoutNode) :
    (layoutIter sqrt edges nodes).map (fun m => m.key) = nodes.map fun m => m.key := by
  unfold layoutIter
  rw [List.map_map]
  exact List.map_congr_left fun n _ => rfl

theorem iterate_layoutIter_eq_spec (sqrt : ℚ → ℚ) (edges : List LayoutEdge) :
    ∀ (k : ℕ) (ns : List LayoutNode), ((ns.map fun m => m.key).Nodup) →
      (layoutIter sqrt edges)^[k] ns = (specIteration specZeroGuard sqrt edges)^[k] ns := by
  intro k
  induction k with
  | zero => intro ns _; rfl
  | succ k ih =>
    intro ns h
    rw [Function.iterate_succ_apply, Function.iterate_succ_apply,
      ← layoutIter_eq_specIteration sqrt edges ns h]
    apply ih
    rw [layoutIter_map_key]
    exact h

/-- C1 (amended): for every graph with distinct node keys, `applyForceLayout`
is exactly 50 iterations, each resetting the force accumulators, summing the
pairwise Coulomb repulsion `(0.1/dist^2)*100` and the per-edge spring force
`(dist - 2)*0.01` along the unit vectors, then updating
`v := v*0.85 + force*0.05` and `pos := pos + v` — where `dist` is
`Math.sqrt(dx^2+dy^2) || 0.1`, i.e. replaced by `0.1` only when it is exactly
zero (not clamped below by `0.1`).  The result is a function of the inputs,
hence deterministic. -/
theorem c1_layout_amended (sqrt : ℚ → ℚ) (nodes : List LayoutNode)
    (edges : List LayoutEdge) (hnd : (nodes.map fun m => m.key).Nodup) :
    applyForceLayout sqrt nodes edges =
      (specIteration specZeroGuard sqrt edges)^[50] nodes :=
  iterate_layoutIter_eq_spec sqrt edges 50 nodes hnd

/-- C1 witness: a two-node, zero-edge instance with distinct keys. -/
theorem c1_layout_amended_witness :
    ((([⟨0, 1, 2, 0, 0⟩, ⟨1, 3, 4, 0, 0⟩] : List LayoutNode).map fun m => m.key).Nodup)
    ∧ applyForceLayout c4Sqrt [⟨0, 1, 2, 0, 0⟩, ⟨1, 3, 4, 0, 0⟩] [] =
      (specIteration specZeroGuard c4Sqrt [])^[50] [⟨0, 1, 2, 0, 0⟩, ⟨1, 3, 4, 0, 0⟩] :=
  ⟨by decide, c1_layout_amended c4Sqrt [⟨0, 1, 2, 0, 0⟩, ⟨1, 3, 4, 0, 0⟩] [] (by decide)⟩

/-- C1 counterexample: the claim's distance guard — a floor of `0.1` — does
not match the code.  Two nodes `1/20` apart: the code (`dist || 0.1`) keeps
`dist = 1/20` and moves the first node to `x = -200`, while an iteration with
the floored guard (`dist = 1/10`) moves it to `x = -25`.  The first conjunct
records that `applyForceLayout` is 50 applications of exactly this iteration,
whose very first application acts on these nodes. -/
theorem c1_floor_guard_counterexample :
    (applyForceLayout sqrtCex layoutCexNodes [] =
      (layoutIter sqrtCex [])^[50] layoutCexNodes)
    ∧ layoutIter sqrtCex [] layoutCexNodes ≠
        specIteration specFloorGuard sqrtCex [] layoutCexNodes := by
  refine ⟨rfl, ?_⟩
  have h1 : (layoutIter sqrtCex [] layoutCexNodes).map (fun m => m.x) =
      [-200, 4001/20] := by
    norm_num [layoutIter, layoutCexNodes, List.ordPairs, repulsionDelta, guardedDist,
      sqrtCex, applyDeltas, Prod.mk_add_mk]
  have h2 : (specIteration specFloorGuard sqrtCex [] layoutCexNodes).map (fun m => m.x) =
      [-25, 501/20] := by
    norm_num [specIteration, layoutCexNodes, specRepulsionOn, specRepTerm, specSpringOn,
      specFloorGuard, sqrtCex, Prod.mk_add_mk, max_def]
  intro heq
  rw [heq, h2] at h1
  norm_num at h1
